import Mathlib

/-
Verification of the `fig` IR backend (src/ir.rs): data model, register and
stack allocators, builder API and lowering to textual x86-64 assembly.
Rust `Vec` push/pop is modelled by `List` append/`getLast?`+`dropLast`, so the
Lean list is in the same order as the Rust vector.  `writeln!` calls are
modelled as a `List String` of emitted lines.  The fallible `alloc` (which
panics in Rust via `expect`) returns an `Option`.
-/

namespace Fig

/-- Enumeration of general-purpose registers (ir.rs `Register`). -/
inductive Register where
  | rax | rbx | rcx | rdx | rsi | rdi
  | r8 | r9 | r10 | r11 | r12 | r13 | r14 | r15
deriving DecidableEq, Repr

/-- Textual name of a register (ir.rs `Register::name`). -/
def Register.name : Register → String
  | .rax => "rax"
  | .rbx => "rbx"
  | .rcx => "rcx"
  | .rdx => "rdx"
  | .rsi => "rsi"
  | .rdi => "rdi"
  | .r8 => "r8"
  | .r9 => "r9"
  | .r10 => "r10"
  | .r11 => "r11"
  | .r12 => "r12"
  | .r13 => "r13"
  | .r14 => "r14"
  | .r15 => "r15"

/-- Reference to a value created by an instruction (ir.rs `ValueRef`). -/
inductive ValueRef where
  | register (reg : Register)
  | memory (off : Nat)
deriving DecidableEq, Repr

/-- Render a value reference as an assembly operand (ir.rs `ValueRef::code`). -/
def ValueRef.code : ValueRef → String
  | .register reg => reg.name
  | .memory off => "[rbp-" ++ toString off ++ "]"

/-- Instructions of the IR (ir.rs `Instruction`).  `Value` is `i64`,
modelled as `Int`. -/
inductive Instruction where
  | constant (storage : ValueRef) (value : Int)
  | alloc (size : Nat)
  | store (value : ValueRef) (storage : ValueRef)
  | add (left : ValueRef) (right : ValueRef)
  | subtract (left : ValueRef) (right : ValueRef)
  | multiply (left : ValueRef) (right : ValueRef)
  | divide (left : ValueRef) (right : ValueRef)
  | jump (dest : String)
  | jumpIfZero (value : ValueRef) (dest : String)
  | call (func : String) (arg : Option ValueRef)
  | exit (exit_code : ValueRef)
deriving DecidableEq, Repr

/-- Register allocator for code generation (ir.rs `RegisterAlloc`).
The `Vec` order is kept: the top of the free stack is the LAST list entry. -/
structure RegisterAlloc where
  free_regs : List Register
  used_regs : List Register
deriving DecidableEq, Repr

namespace RegisterAlloc

/-- A new, clean register allocator (ir.rs `RegisterAlloc::new`). -/
def new : RegisterAlloc :=
  { free_regs := [.rdi, .rsi, .rdx, .rcx, .rbx, .rax,
                  .r8, .r9, .r10, .r11, .r12, .r13, .r14, .r15],
    used_regs := [] }

/-- Allocate a register by popping the free list (ir.rs `RegisterAlloc::alloc`);
the Rust code panics with "no free register" when the list is empty, modelled
here by `none`. -/
def alloc (a : RegisterAlloc) : Option (Register × RegisterAlloc) :=
  match a.free_regs.getLast? with
  | none => none
  | some reg => some (reg, { a with free_regs := a.free_regs.dropLast })

/-- Free a register by pushing it onto the free list (ir.rs `RegisterAlloc::free`). -/
def free (a : RegisterAlloc) (reg : Register) : RegisterAlloc :=
  { a with free_regs := a.free_regs ++ [reg] }

/-- Repeatedly allocate `n` registers, collecting the results in order. -/
def allocMany : Nat → RegisterAlloc → List Register × RegisterAlloc
  | 0, a => ([], a)
  | n + 1, a =>
    match a.alloc with
    | none => ([], a)
    | some (r, a1) =>
      let p := allocMany n a1
      (r :: p.1, p.2)

end RegisterAlloc

/-- Stack memory allocator for code generation (ir.rs `StackAlloc`). -/
structure StackAlloc where
  current_size : Nat
deriving DecidableEq, Repr

namespace StackAlloc

/-- Allocate stack memory of the given size, returning the new running total
as the offset (ir.rs `StackAlloc::alloc`). -/
def alloc (a : StackAlloc) (size : Nat) : Nat × StackAlloc :=
  (a.current_size + size, { current_size := a.current_size + size })

/-- Run a sequence of stack allocations, collecting the returned offsets. -/
def allocSeq : List Nat → StackAlloc → List Nat × StackAlloc
  | [], a => ([], a)
  | s :: rest, a =>
    let p := a.alloc s
    let q := allocSeq rest p.2
    (p.1 :: q.1, q.2)

end StackAlloc

/-- A block: a named instruction sequence with private allocator state
(ir.rs `Block`). -/
structure Block where
  name : String
  instructions : List Instruction
  registers : RegisterAlloc
  stack : StackAlloc
deriving Repr

namespace Block

/-- A new empty block with the given name (ir.rs `Block::new`). -/
def new (name : String) : Block :=
  { name := name, instructions := [], registers := RegisterAlloc.new,
    stack := { current_size := 0 } }

/-- Append a `Constant` instruction (ir.rs `Block::build_constant`); fails
(`none`) when the register allocator is exhausted, where Rust panics. -/
def build_constant (b : Block) (value : Int) : Option (ValueRef × Block) :=
  match b.registers.alloc with
  | none => none
  | some (reg, regs) =>
    let storage := ValueRef.register reg
    some (storage,
      { b with registers := regs,
               instructions := b.instructions ++ [.constant storage value] })

/-- Append an `Alloc` instruction (ir.rs `Block::build_alloc`). -/
def build_alloc (b : Block) (size : Nat) : ValueRef × Block :=
  let p := b.stack.alloc size
  (ValueRef.memory p.1,
   { b with stack := p.2, instructions := b.instructions ++ [.alloc size] })

/-- Append a `Store` instruction (ir.rs `Block::build_store`); releases the
value's register, if any. -/
def build_store (b : Block) (value : ValueRef) (storage : ValueRef) : Block :=
  let b1 := { b with instructions := b.instructions ++ [.store value storage] }
  match value with
  | .register reg => { b1 with registers := b1.registers.free reg }
  | .memory _ => b1

/-- Append an `Add` instruction (ir.rs `Block::build_add`); releases the right
operand's register, if any, and returns the left operand as the result. -/
def build_add (b : Block) (left right : ValueRef) : ValueRef × Block :=
  let b1 := { b with instructions := b.instructions ++ [.add left right] }
  match right with
  | .register reg => (left, { b1 with registers := b1.registers.free reg })
  | .memory _ => (left, b1)

/-- Append a `Subtract` instruction (ir.rs `Block::build_subtract`). -/
def build_subtract (b : Block) (left right : ValueRef) : ValueRef × Block :=
  let b1 := { b with instructions := b.instructions ++ [.subtract left right] }
  match right with
  | .register reg => (left, { b1 with registers := b1.registers.free reg })
  | .memory _ => (left, b1)

/-- Append a `Multiply` instruction (ir.rs `Block::build_multiply`). -/
def build_multiply (b : Block) (left right : ValueRef) : ValueRef × Block :=
  let b1 := { b with instructions := b.instructions ++ [.multiply left right] }
  match right with
  | .register reg => (left, { b1 with registers := b1.registers.free reg })
  | .memory _ => (left, b1)

/-- Append a `Divide` instruction (ir.rs `Block::build_divide`). -/
def build_divide (b : Block) (left right : ValueRef) : ValueRef × Block :=
  let b1 := { b with instructions := b.instructions ++ [.divide left right] }
  match right with
  | .register reg => (left, { b1 with registers := b1.registers.free reg })
  | .memory _ => (left, b1)

/-- Append a `Jump` instruction (ir.rs `Block::build_jump`). -/
def build_jump (b : Block) (dest : String) : Block :=
  { b with instructions := b.instructions ++ [.jump dest] }

/-- Append a `JumpIfZero` instruction (ir.rs `Block::build_jump_if_zero`);
releases the value's register, if any. -/
def build_jump_if_zero (b : Block) (value : ValueRef) (dest : String) : Block :=
  let b1 := { b with instructions := b.instructions ++ [.jumpIfZero value dest] }
  match value with
  | .register reg => { b1 with registers := b1.registers.free reg }
  | .memory _ => b1

/-- Append a `Call` instruction (ir.rs `Block::build_call`). -/
def build_call (b : Block) (func : String) (arg : Option ValueRef) : Block :=
  { b with instructions := b.instructions ++ [.call func arg] }

/-- Append an `Exit` instruction (ir.rs `Block::build_exit`). -/
def build_exit (b : Block) (exit_code : ValueRef) : Block :=
  { b with instructions := b.instructions ++ [.exit exit_code] }

end Block

/-- Lines of assembly emitted for a single instruction, one list entry per
`writeln!` call in the body of the loop of ir.rs `Block::generate_code`
(including the trailing space the source writes after "pop rax"). -/
def instructionLines : Instruction → List String
  | .constant storage value =>
    ["\tmov " ++ storage.code ++ ", " ++ toString value]
  | .alloc size =>
    ["\tsub rsp, " ++ toString size]
  | .store value storage =>
    ["\tmov " ++ storage.code ++ ", " ++ value.code]
  | .add left right =>
    ["\tadd " ++ left.code ++ ", " ++ right.code]
  | .subtract left right =>
    ["\tsub " ++ left.code ++ ", " ++ right.code]
  | .multiply left right =>
    ["\timul " ++ left.code ++ ", " ++ right.code]
  | .divide left right =>
    ["\tpush rdx", "\tmov rdx, 0"]
    ++ (if left ≠ ValueRef.register .rax then
          ["\tpush rax", "\tmov rax, " ++ left.code]
        else [])
    ++ ["\tidiv " ++ right.code]
    ++ (if left ≠ ValueRef.register .rax then
          ["\tmov " ++ left.code ++ ", rax", "\tpop rax "]
        else [])
    ++ ["\tpop rdx"]
  | .jump dest =>
    ["\tjmp " ++ dest]
  | .jumpIfZero value dest =>
    ["\tcmp QWORD " ++ value.code ++ ", 0", "\tje " ++ dest]
  | .call func arg =>
    (match arg with
     | some a =>
       if a ≠ ValueRef.register .rdi then ["\tmov rdi, " ++ a.code] else []
     | none => [])
    ++ ["\tcall " ++ func]
  | .exit exit_code =>
    ["\tmov rax, 60"]
    ++ (if exit_code ≠ ValueRef.register .rdi then
          ["\tmov rdi, " ++ exit_code.code]
        else [])
    ++ ["\tsyscall"]

/-- Lines emitted for a block: its label followed by each instruction's lines
(ir.rs `Block::generate_code`). -/
def Block.generate_code (b : Block) : List String :=
  (b.name ++ ":") :: b.instructions.flatMap instructionLines

/-- A function: a name and an ordered list of blocks (ir.rs `Function`).
Rust stores borrowed references; the Lean model stores the blocks directly. -/
structure Function where
  name : String
  blocks : List Block

/-- Lines emitted for a function: export directive, label, prologue, each
block's code, and teardown (ir.rs `Function::generate_code`). -/
def Function.generate_code (f : Function) : List String :=
  ["global " ++ f.name, f.name ++ ":", "\tpush rbp", "\tmov rbp, rsp"]
  ++ f.blocks.flatMap Block.generate_code
  ++ ["\tleave"]

/-- A module: a collection of functions (ir.rs `Module`). -/
structure Module where
  funcs : List Function

/-- Lines emitted for a module: the file header followed by each function's
code (ir.rs `Module::generate_code`).  The header is written unconditionally:
a text-segment directive and a fixed external declaration of `put_int`. -/
def Module.generate_code (m : Module) : List String :=
  ["segment .text", "extern put_int"]
  ++ m.funcs.flatMap Function.generate_code

/-- Names of helper routines referenced by some `Call` instruction anywhere
in the module (derived observer over the source data model). -/
def Module.callTargets (m : Module) : List String :=
  m.funcs.flatMap fun f =>
    f.blocks.flatMap fun b =>
      b.instructions.filterMap fun i =>
        match i with
        | .call func _ => some func
        | _ => none

/-- C1: every binary arithmetic build operation (`build_add`, `build_subtract`,
`build_multiply`, `build_divide`) returns the left operand unchanged as its
result; when the right operand is a register, that register is pushed onto the
allocator's free list, so a subsequent allocation returns exactly it. -/
theorem c1_binop_reuses_left_and_releases_right (b : Block)
    (left right : ValueRef) (r : Register) :
    (b.build_add left right).1 = left ∧
    (b.build_subtract left right).1 = left ∧
    (b.build_multiply left right).1 = left ∧
    (b.build_divide left right).1 = left ∧
    (b.build_add left (.register r)).2.registers.free_regs
      = b.registers.free_regs ++ [r] ∧
    (b.build_subtract left (.register r)).2.registers.free_regs
      = b.registers.free_regs ++ [r] ∧
    (b.build_multiply left (.register r)).2.registers.free_regs
      = b.registers.free_regs ++ [r] ∧
    (b.build_divide left (.register r)).2.registers.free_regs
      = b.registers.free_regs ++ [r] ∧
    ((b.build_add left (.register r)).2.registers.alloc.map fun p => p.1)
      = some r ∧
    ((b.build_subtract left (.register r)).2.registers.alloc.map fun p => p.1)
      = some r ∧
    ((b.build_multiply left (.register r)).2.registers.alloc.map fun p => p.1)
      = some r ∧
    ((b.build_divide left (.register r)).2.registers.alloc.map fun p => p.1)
      = some r := by
  cases right <;>
    simp [Block.build_add, Block.build_subtract, Block.build_multiply,
      Block.build_divide, RegisterAlloc.free, RegisterAlloc.alloc,
      List.getLast?_concat, List.dropLast_concat]

/-- C2: when the free list is empty (all fourteen registers simultaneously
live) a further allocation fails rather than returning any register; in
particular, from a fresh allocator, fourteen allocations yield fourteen
pairwise distinct registers and the next allocation fails. -/
theorem c2_alloc_exhaustion (a : RegisterAlloc) (h : a.free_regs = []) :
    a.alloc = none ∧
    (RegisterAlloc.allocMany 14 RegisterAlloc.new).1.Nodup ∧
    (RegisterAlloc.allocMany 14 RegisterAlloc.new).1.length = 14 ∧
    (RegisterAlloc.allocMany 14 RegisterAlloc.new).2.alloc = none := by
  refine ⟨?_, by decide, by decide, by decide⟩
  simp [RegisterAlloc.alloc, h]

/-- C2 witness: the concrete allocator with an empty free list fails. -/
theorem c2_alloc_exhaustion_witness :
    (RegisterAlloc.mk [] []).alloc = none :=
  (c2_alloc_exhaustion (RegisterAlloc.mk [] []) rfl).1

/-- C3: for every allocator state and register r, freeing r and then
allocating returns r (LIFO free-list discipline) and restores the allocator
to its state before the free. -/
theorem c3_free_then_alloc_is_lifo (a : RegisterAlloc) (r : Register) :
    (a.free r).alloc = some (r, a) := by
  simp [RegisterAlloc.alloc, RegisterAlloc.free, List.getLast?_concat,
    List.dropLast_concat]

/-- C4: the Divide lowering emits a save of rdx, zeroing of rdx, then —
exactly when the left operand is not the register rax — a save of rax and a
move of left into rax; then the idiv of right; then — exactly when left is
not rax — a move of the quotient back to left and a restore of rax; and the
final emitted line is the restore of rdx. -/
theorem c4_divide_lowering (left right : ValueRef) :
    (left = ValueRef.register .rax →
      instructionLines (.divide left right)
        = ["\tpush rdx", "\tmov rdx, 0",
           "\tidiv " ++ right.code, "\tpop rdx"]) ∧
    (left ≠ ValueRef.register .rax →
      instructionLines (.divide left right)
        = ["\tpush rdx", "\tmov rdx, 0",
           "\tpush rax", "\tmov rax, " ++ left.code,
           "\tidiv " ++ right.code,
           "\tmov " ++ left.code ++ ", rax", "\tpop rax ", "\tpop rdx"]) ∧
    (∃ front, instructionLines (.divide left right)
        = front ++ ["\tpop rdx"]) := by
  refine ⟨fun h => by simp [instructionLines, h],
          fun h => by simp [instructionLines, h], ?_⟩
  by_cases h : left = ValueRef.register .rax
  · exact ⟨["\tpush rdx", "\tmov rdx, 0", "\tidiv " ++ right.code],
      by simp [instructionLines, h]⟩
  · exact ⟨["\tpush rdx", "\tmov rdx, 0",
            "\tpush rax", "\tmov rax, " ++ left.code,
            "\tidiv " ++ right.code,
            "\tmov " ++ left.code ++ ", rax", "\tpop rax "],
      by simp [instructionLines, h]⟩

/-- C4 witness: the Divide lowering evaluated at rax/rbx and at rcx/rbx. -/
theorem c4_divide_lowering_witness :
    instructionLines (.divide (ValueRef.register .rax) (ValueRef.register .rbx))
      = ["\tpush rdx", "\tmov rdx, 0", "\tidiv " ++ "rbx", "\tpop rdx"] ∧
    instructionLines (.divide (ValueRef.register .rcx) (ValueRef.register .rbx))
      = ["\tpush rdx", "\tmov rdx, 0",
         "\tpush rax", "\tmov rax, " ++ "rcx", "\tidiv " ++ "rbx",
         "\tmov " ++ "rcx" ++ ", rax", "\tpop rax ", "\tpop rdx"] :=
  ⟨(c4_divide_lowering (ValueRef.register .rax) (ValueRef.register .rbx)).1 rfl,
   (c4_divide_lowering (ValueRef.register .rcx)
      (ValueRef.register .rbx)).2.1 (by decide)⟩

/-- C5: the Exit lowering always first emits the move of the termination
syscall number 60 into rax, emits a move of the exit code into rdi exactly
when the exit code is not already the register rdi, and ends with the
syscall line. -/
theorem c5_exit_lowering (c : ValueRef) :
    (c = ValueRef.register .rdi →
      instructionLines (.exit c) = ["\tmov rax, 60", "\tsyscall"]) ∧
    (c ≠ ValueRef.register .rdi →
      instructionLines (.exit c)
        = ["\tmov rax, 60", "\tmov rdi, " ++ c.code, "\tsyscall"]) :=
  ⟨fun h => by simp [instructionLines, h],
   fun h => by simp [instructionLines, h]⟩

/-- C5 witness: the Exit lowering evaluated at rdi and at a memory slot. -/
theorem c5_exit_lowering_witness :
    instructionLines (.exit (ValueRef.register .rdi))
      = ["\tmov rax, 60", "\tsyscall"] ∧
    instructionLines (.exit (ValueRef.memory 8))
      = ["\tmov rax, 60", "\tmov rdi, " ++ (ValueRef.memory 8).code,
         "\tsyscall"] :=
  ⟨(c5_exit_lowering (ValueRef.register .rdi)).1 rfl,
   (c5_exit_lowering (ValueRef.memory 8)).2 (by decide)⟩

/-- C10: `build_call` appends exactly one Call instruction and leaves both
allocators untouched — in particular an argument register is NOT released —
whereas `build_store`, `build_jump_if_zero` and the binary builders do push
their consumed operand's register onto the free list. -/
theorem c10_build_call_keeps_allocators (b : Block) (func d : String)
    (arg : Option ValueRef) (r : Register) (storage : ValueRef) :
    (b.build_call func arg).instructions
      = b.instructions ++ [Instruction.call func arg] ∧
    (b.build_call func arg).registers = b.registers ∧
    (b.build_call func arg).stack = b.stack ∧
    (b.build_store (ValueRef.register r) storage).registers.free_regs
      = b.registers.free_regs ++ [r] ∧
    (b.build_jump_if_zero (ValueRef.register r) d).registers.free_regs
      = b.registers.free_regs ++ [r] ∧
    (b.build_add storage (ValueRef.register r)).2.registers.free_regs
      = b.registers.free_regs ++ [r] := by
  refine ⟨rfl, rfl, rfl, ?_, ?_, ?_⟩ <;>
    simp [Block.build_store, Block.build_jump_if_zero, Block.build_add,
      RegisterAlloc.free]

/-- C6: a function with two blocks, each holding one 8-byte stack
reservation, lowers to one stack-pointer adjustment per reservation inside
the blocks — two "sub rsp, 8" lines — and no coalesced frame-size adjustment
at function entry (the line after the prologue move is the first block's
label, not an adjustment). -/
theorem c6_one_adjustment_per_reservation :
    Function.generate_code
      { name := "main",
        blocks := [((Block.new "b1").build_alloc 8).2,
                   ((Block.new "b2").build_alloc 8).2] }
      = ["global main", "main:", "\tpush rbp", "\tmov rbp, rsp",
         "b1:", "\tsub rsp, 8", "b2:", "\tsub rsp, 8", "\tleave"] ∧
    (Function.generate_code
      { name := "main",
        blocks := [((Block.new "b1").build_alloc 8).2,
                   ((Block.new "b2").build_alloc 8).2]}).countP
      (fun l => l == "\tsub rsp, 8") = 2 := by
  constructor <;> rfl

/-- Every offset returned by a run of the stack allocator is at least the
starting running total. -/
theorem StackAlloc.allocSeq_le (sizes : List Nat) :
    ∀ (a : StackAlloc), ∀ x ∈ (StackAlloc.allocSeq sizes a).1,
      a.current_size ≤ x := by
  induction sizes with
  | nil => intro a x hx; simp [StackAlloc.allocSeq] at hx
  | cons s rest ih =>
    intro a x hx
    simp only [StackAlloc.allocSeq, StackAlloc.alloc, List.mem_cons] at hx
    rcases hx with h | h
    · omega
    · have h2 : a.current_size + s ≤ x := ih ⟨a.current_size + s⟩ x h
      omega

/-- With all sizes positive, every offset returned by a run of the stack
allocator strictly exceeds the starting running total. -/
theorem StackAlloc.allocSeq_lt (sizes : List Nat) :
    ∀ (a : StackAlloc), (∀ x ∈ sizes, 0 < x) →
      ∀ x ∈ (StackAlloc.allocSeq sizes a).1, a.current_size < x := by
  induction sizes with
  | nil => intro a _ x hx; simp [StackAlloc.allocSeq] at hx
  | cons s rest ih =>
    intro a hpos x hx
    simp only [StackAlloc.allocSeq, StackAlloc.alloc, List.mem_cons] at hx
    have hs : 0 < s := hpos s (List.mem_cons_self s rest)
    rcases hx with h | h
    · omega
    · have h2 : a.current_size + s < x :=
        ih ⟨a.current_size + s⟩
          (fun y hy => hpos y (List.mem_cons_of_mem s hy)) x h
      omega

/-- The offsets returned by a run of the stack allocator are non-decreasing. -/
theorem StackAlloc.allocSeq_chain_le (sizes : List Nat) :
    ∀ (a : StackAlloc), (StackAlloc.allocSeq sizes a).1.Chain' (· ≤ ·) := by
  induction sizes with
  | nil => intro a; simp [StackAlloc.allocSeq]
  | cons s rest ih =>
    intro a
    simp only [StackAlloc.allocSeq, StackAlloc.alloc]
    rw [List.chain'_cons']
    refine ⟨fun y hy => ?_, ih _⟩
    exact StackAlloc.allocSeq_le rest ⟨a.current_size + s⟩ y
      (List.mem_of_mem_head? hy)

/-- With all sizes positive, the returned offsets strictly increase. -/
theorem StackAlloc.allocSeq_chain_lt (sizes : List Nat) :
    ∀ (a : StackAlloc), (∀ x ∈ sizes, 0 < x) →
      (StackAlloc.allocSeq sizes a).1.Chain' (· < ·) := by
  induction sizes with
  | nil => intro a _; simp [StackAlloc.allocSeq]
  | cons s rest ih =>
    intro a hpos
    simp only [StackAlloc.allocSeq, StackAlloc.alloc]
    rw [List.chain'_cons']
    have hrest : ∀ y ∈ rest, 0 < y :=
      fun y hy => hpos y (List.mem_cons_of_mem s hy)
    refine ⟨fun y hy => ?_, ih _ hrest⟩
    exact StackAlloc.allocSeq_lt rest ⟨a.current_size + s⟩ hrest y
      (List.mem_of_mem_head? hy)

/-- C7 counterexample: a zero-size allocation returns the same offset twice
(offsets [5, 5]), so the returned offsets are not strictly increasing. -/
theorem c7_zero_size_repeats_offset :
    (StackAlloc.allocSeq [5, 0] ⟨0⟩).1 = [5, 5] ∧
    ¬ List.Pairwise (· < ·) (StackAlloc.allocSeq [5, 0] ⟨0⟩).1 := by
  exact ⟨rfl, by decide⟩

/-- C7 amended: each alloc(size) returns the previous running total plus
size; across the allocator's lifetime the returned offsets are
non-decreasing, and strictly increasing when every requested size is
positive. -/
theorem c7_stack_offsets_monotone (a : StackAlloc) (s : Nat)
    (sizes : List Nat) :
    a.alloc s = (a.current_size + s, ⟨a.current_size + s⟩) ∧
    (StackAlloc.allocSeq sizes a).1.Chain' (· ≤ ·) ∧
    ((∀ x ∈ sizes, 0 < x) →
      (StackAlloc.allocSeq sizes a).1.Chain' (· < ·)) :=
  ⟨rfl, StackAlloc.allocSeq_chain_le sizes a,
   fun h => StackAlloc.allocSeq_chain_lt sizes a h⟩

/-- C7 witness: strict increase at the concrete run with sizes 1 and 2. -/
theorem c7_stack_offsets_monotone_witness :
    (StackAlloc.allocSeq [1, 2] ⟨0⟩).1.Chain' (· < ·) :=
  (c7_stack_offsets_monotone ⟨0⟩ 0 [1, 2]).2.2 (by decide)

/-- A string starting with a tab still starts with a tab after appending. -/
theorem tab_head_append (s t : String) (h : s.data.head? = some '\t') :
    (s ++ t).data.head? = some '\t' := by
  rw [String.data_append, List.head?_append, h]
  rfl

/-- Every line emitted for an instruction begins with a tab character. -/
theorem instructionLines_tab (i : Instruction) :
    ∀ line ∈ instructionLines i, line.data.head? = some '\t' := by
  cases i with
  | constant storage value =>
    intro line h
    simp only [instructionLines, List.mem_singleton] at h
    subst h
    exact tab_head_append _ _ (tab_head_append _ _ (tab_head_append _ _ rfl))
  | alloc size =>
    intro line h
    simp only [instructionLines, List.mem_singleton] at h
    subst h
    exact tab_head_append _ _ rfl
  | store value storage =>
    intro line h
    simp only [instructionLines, List.mem_singleton] at h
    subst h
    exact tab_head_append _ _ (tab_head_append _ _ (tab_head_append _ _ rfl))
  | add left right =>
    intro line h
    simp only [instructionLines, List.mem_singleton] at h
    subst h
    exact tab_head_append _ _ (tab_head_append _ _ (tab_head_append _ _ rfl))
  | subtract left right =>
    intro line h
    simp only [instructionLines, List.mem_singleton] at h
    subst h
    exact tab_head_append _ _ (tab_head_append _ _ (tab_head_append _ _ rfl))
  | multiply left right =>
    intro line h
    simp only [instructionLines, List.mem_singleton] at h
    subst h
    exact tab_head_append _ _ (tab_head_append _ _ (tab_head_append _ _ rfl))
  | divide left right =>
    intro line h
    by_cases hl : left = ValueRef.register .rax
    · simp [instructionLines, hl] at h
      rcases h with rfl | rfl | rfl | rfl
      · rfl
      · rfl
      · exact tab_head_append _ _ rfl
      · rfl
    · simp [instructionLines, hl] at h
      rcases h with rfl | rfl | rfl | rfl | rfl | rfl | rfl | rfl
      · rfl
      · rfl
      · rfl
      · exact tab_head_append _ _ rfl
      · exact tab_head_append _ _ rfl
      · exact tab_head_append _ _ (tab_head_append _ _ rfl)
      · rfl
      · rfl
  | jump dest =>
    intro line h
    simp only [instructionLines, List.mem_singleton] at h
    subst h
    exact tab_head_append _ _ rfl
  | jumpIfZero value dest =>
    intro line h
    simp only [instructionLines, List.mem_cons, List.mem_singleton,
      List.not_mem_nil, or_false] at h
    rcases h with rfl | rfl
    · exact tab_head_append _ _ (tab_head_append _ _ rfl)
    · exact tab_head_append _ _ rfl
  | call func arg =>
    intro line h
    cases arg with
    | none =>
      simp [instructionLines] at h
      subst h
      exact tab_head_append _ _ rfl
    | some a =>
      by_cases ha : a = ValueRef.register .rdi
      · simp [instructionLines, ha] at h
        subst h
        exact tab_head_append _ _ rfl
      · simp [instructionLines, ha] at h
        rcases h with rfl | rfl
        · exact tab_head_append _ _ rfl
        · exact tab_head_append _ _ rfl
  | exit exit_code =>
    intro line h
    by_cases hc : exit_code = ValueRef.register .rdi
    · simp [instructionLines, hc] at h
      rcases h with rfl | rfl
      · rfl
      · rfl
    · simp [instructionLines, hc] at h
      rcases h with rfl | rfl | rfl
      · rfl
      · exact tab_head_append _ _ rfl
      · rfl

/-- C8 counterexample: the concrete function named "main" has its label line
emitted colon-terminated ("main:") at index 1 of the output, contradicting
the claim that exported function labels are emitted as an unterminated bare
name. -/
theorem c8_function_label_is_colon_terminated :
    (Function.generate_code { name := "main", blocks := [] })[1]?
      = some ("main" ++ ":") ∧
    ("main" ++ ":").data.getLast? = some ':' := by
  exact ⟨rfl, by decide⟩

/-- C8 amended: block labels AND function labels are emitted as unindented
colon-terminated lines; the function's export declaration is a separate
`global` directive carrying the bare, unterminated name; every instruction
line is tab-indented; operand order is destination-first (shown for the
Store lowering, whose single line names the destination before the value). -/
theorem c8_output_format (b : Block) (f : Function) (i : Instruction)
    (value storage : ValueRef) :
    b.generate_code.head? = some (b.name ++ ":") ∧
    f.generate_code.head? = some ("global " ++ f.name) ∧
    f.generate_code[1]? = some (f.name ++ ":") ∧
    (∀ line ∈ instructionLines i, line.data.head? = some '\t') ∧
    instructionLines (.store value storage)
      = ["\tmov " ++ storage.code ++ ", " ++ value.code] :=
  ⟨rfl, rfl, rfl, instructionLines_tab i, rfl⟩

/-- C8 witness: the jump line at a concrete instruction starts with a tab. -/
theorem c8_output_format_witness :
    ("\tjmp " ++ "end").data.head? = some '\t' :=
  (c8_output_format (Block.new "b") { name := "main", blocks := [] }
      (.jump "end") (ValueRef.register .rax) (ValueRef.memory 8)).2.2.2.1
    ("\tjmp " ++ "end") (List.mem_singleton.mpr rfl)

/-- C9 counterexample: the empty module contains no Call instruction at all,
yet its emitted header still declares the helper put_int, contradicting the
claim that an extern declaration appears only for helpers referenced by some
Call. -/
theorem c9_extern_without_call :
    "extern put_int" ∈ Module.generate_code { funcs := [] } ∧
    Module.callTargets { funcs := [] } = [] := by
  exact ⟨by decide, rfl⟩

/-- C9 amended: the header is emitted exactly once at the start of the
module output — the text-segment directive followed by a FIXED extern
declaration of put_int, independent of which Call instructions occur — then
the functions' code; a global declaration is emitted for every function. -/
theorem c9_header_emitted_once (m : Module) (f : Function)
    (hf : f ∈ m.funcs) :
    m.generate_code.take 2 = ["segment .text", "extern put_int"] ∧
    m.generate_code.drop 2 = m.funcs.flatMap Function.generate_code ∧
    ("global " ++ f.name) ∈ m.generate_code := by
  refine ⟨rfl, rfl, ?_⟩
  have h1 : ("global " ++ f.name) ∈ Function.generate_code f := by
    simp [Function.generate_code]
  exact List.mem_append_right _ (List.mem_flatMap.mpr ⟨f, hf, h1⟩)

/-- C9 witness: the global line of a concrete one-function module. -/
theorem c9_header_emitted_once_witness :
    ("global " ++ "main") ∈
      Module.generate_code { funcs := [{ name := "main", blocks := [] }] } :=
  (c9_header_emitted_once { funcs := [{ name := "main", blocks := [] }] }
      { name := "main", blocks := [] } (List.mem_singleton.mpr rfl)).2.2

end Fig
